import Mathlib

/-!
# Verification of the sreality scraper (src/scraper.py)

Shallow embedding of the scraper's data model and operations.  Pure Python
functions become Lean functions on `String` / `List Char`; the HTTP fetches
become explicit environment parameters of type `String → Except String _`
where `.error` models `requests.get` raising (connection error, timeout) and
`.ok` models a received response of any status code; console output is
returned alongside values; the thread pool's `as_completed` order is an
explicit completion-order list parameter.

Python regular expressions used by the scraper are embedded as dedicated
backtracking matchers specialised to the two patterns that occur in the
source, with Python's `\d` and `\s` restricted to their ASCII content and
`.` excluding the newline character as in default (non-DOTALL) mode.
-/

set_option maxRecDepth 4000

namespace Sreality

/-- ASCII whitespace accepted by Python's `\s` and `str.strip`. -/
def pyWs (c : Char) : Bool :=
  c = ' ' || c = '\t' || c = '\n' || c = '\r' || c = Char.ofNat 11 || c = Char.ofNat 12

/-- `str.strip()`: drop whitespace from both ends. -/
def stripL (l : List Char) : List Char :=
  ((l.dropWhile pyWs).reverse.dropWhile pyWs).reverse

/-- `str.strip()` on strings. -/
def pyStripS (s : String) : String := ⟨stripL s.data⟩

/-- Maximal digit run at the head of the list, with the remainder. -/
def digitRun : List Char → List Char × List Char
  | [] => ([], [])
  | c :: rest =>
    if c.isDigit then
      let p := digitRun rest
      (c :: p.1, p.2)
    else ([], c :: rest)

/-- Skip a maximal run of whitespace (`\s*`, greedy; backtracking never helps
because the continuations in the embedded patterns never start with
whitespace). -/
def dropWs (l : List Char) : List Char := l.dropWhile pyWs

/-- Match a literal character sequence, returning the rest on success. -/
def matchLit : List Char → List Char → Option (List Char)
  | [], l => some l
  | _ :: _, [] => none
  | p :: ps, c :: cs => if p = c then matchLit ps cs else none

/-- Decimal value of a digit string, as computed by Python's `int`. -/
def natOfDigits (l : List Char) : Nat :=
  l.foldl (fun a c => 10 * a + (c.toNat - 48)) 0

/-- `needle` occurs as a contiguous substring of `hay` (Python's `in`). -/
def occursL (needle : List Char) : List Char → Bool
  | [] => needle.isEmpty
  | c :: rest => (matchLit needle (c :: rest)).isSome || occursL needle rest

/-- Substring test on strings. -/
def occursStr (needle hay : String) : Bool := occursL needle.data hay.data

/-- Accumulating pass behind `re.findall(r"\d+", ...)`: returns the maximal
digit runs of the input in order of appearance (`cur` holds the reversed
current run). -/
def runsAux : List Char → List Char → List (List Char)
  | [], cur => if cur.isEmpty then [] else [cur.reverse]
  | c :: rest, cur =>
    if c.isDigit then runsAux rest (c :: cur)
    else if cur.isEmpty then runsAux rest [] else cur.reverse :: runsAux rest []

/-- `clean_price` (src/scraper.py:95): `re.findall(r"\d+", text)`, joined and
parsed as an integer, `None` when no digit run exists. -/
def clean_price (price_text : String) : Option Nat :=
  let price_numbers := runsAux price_text.data []
  if price_numbers.isEmpty then none else some (natOfDigits price_numbers.flatten)

/-- `VALID_ESTATE_TYPES` (src/scraper.py:18). -/
def VALID_ESTATE_TYPES : List String := ["byty", "domy"]

/-- `VALID_REGIONS` (src/scraper.py:20). -/
def VALID_REGIONS : List String :=
  ["praha", "jihocesky-kraj", "jihomoravsky-kraj", "karlovarsky-kraj",
   "kralovehradecky-kraj", "liberecky-kraj", "moravskoslezsky-kraj",
   "olomoucky-kraj", "pardubicky-kraj", "plzensky-kraj", "stredocesky-kraj",
   "ustecky-kraj", "vysocina", "zlinsky-kraj"]

/-- `VALID_FLAT_TYPES` (src/scraper.py:37), in declared order. -/
def VALID_FLAT_TYPES : List String :=
  ["1+kk", "1+1", "2+kk", "2+1", "3+kk", "3+1", "4+kk", "4+1", "5+kk", "5+1",
   "6 a více", "Atypický"]

/-- A single apostrophe character, as used by Python's `repr` of a string. -/
def pyQuote : String := String.singleton (Char.ofNat 39)

/-- Python's `str` rendering of a list of strings, e.g. on
`f"... Allowed: ⟮VALID_ESTATE_TYPES⟯"`. -/
def pyListRepr (xs : List String) : String :=
  "[" ++ String.intercalate ", " (xs.map (fun s => pyQuote ++ s ++ pyQuote)) ++ "]"

/-- Python's `str.isdigit` restricted to ASCII: nonempty and all digits. -/
def pyIsdigit (s : String) : Bool := !s.data.isEmpty && s.data.all Char.isDigit

/-- `validate_args` (src/scraper.py:57).  `Except.error` models `raise
ValueError(...)` carrying the formatted message. -/
def validate_args (estate_type region pages : String) :
    Except String (String × String × Nat) :=
  if estate_type ∉ VALID_ESTATE_TYPES then
    .error ("Invalid estate type: " ++ estate_type ++ ". Allowed: " ++
      pyListRepr VALID_ESTATE_TYPES)
  else if region ≠ "all" ∧ region ∉ VALID_REGIONS then
    .error ("Invalid region: " ++ region ++ ". Allowed: " ++
      pyListRepr VALID_REGIONS ++ " or " ++ pyQuote ++ "all" ++ pyQuote ++ ".")
  else if ¬(pyIsdigit pages ∧ 0 < natOfDigits pages.data) then
    .error ("Pages must be a positive integer, got: " ++ pages)
  else
    .ok (estate_type, region, natOfDigits pages.data)

/-! ### The two area regular expressions

`parse_house` uses `re.search(r"(\d+)\s*m².*?pozemek\s*(\d+)\s*m²", title)`
and `parse_flat` uses `re.search(r"(\d+)\s*m²", title)`.  `re.search` yields
the leftmost match; within each pattern the greedy `\d+` and `\s*` pieces are
equivalent to taking maximal runs, because the respective continuations can
never consume a digit or a whitespace character, so backtracking inside a run
cannot succeed.  The lazy `.*?` is equivalent to scanning forward for the
first position at which the rest of the pattern matches, never crossing a
newline (`.` in default mode). -/

/-- Tail of the house pattern, `pozemek\s*(\d+)\s*m²`, anchored here. -/
def houseTail (l : List Char) : Option Nat :=
  match matchLit "pozemek".data l with
  | none => none
  | some r1 =>
    let p := digitRun (dropWs r1)
    if p.1.isEmpty then none
    else
      match matchLit "m²".data (dropWs p.2) with
      | some _ => some (natOfDigits p.1)
      | none => none

/-- The lazy `.*?pozemek\s*(\d+)\s*m²` scan: try `houseTail` at each position,
stopping when a newline would have to be consumed by `.`. -/
def houseScan : List Char → Option Nat
  | [] => none
  | c :: rest =>
    match houseTail (c :: rest) with
    | some b => some b
    | none => if c = '\n' then none else houseScan rest

/-- The whole house pattern anchored at this position. -/
def houseAt (l : List Char) : Option (Nat × Nat) :=
  let p := digitRun l
  if p.1.isEmpty then none
  else
    match matchLit "m²".data (dropWs p.2) with
    | none => none
    | some r2 =>
      match houseScan r2 with
      | some b => some (natOfDigits p.1, b)
      | none => none

/-- `re.search` of the house pattern: leftmost starting position wins. -/
def searchHouseArea : List Char → Option (Nat × Nat)
  | [] => none
  | c :: rest =>
    match houseAt (c :: rest) with
    | some r => some r
    | none => searchHouseArea rest

/-- The flat pattern `(\d+)\s*m²` anchored at this position. -/
def flatAt (l : List Char) : Option Nat :=
  let p := digitRun l
  if p.1.isEmpty then none
  else
    match matchLit "m²".data (dropWs p.2) with
    | some _ => some (natOfDigits p.1)
    | none => none

/-- `re.search` of the flat pattern: leftmost starting position wins. -/
def searchFlatArea : List Char → Option Nat
  | [] => none
  | c :: rest =>
    match flatAt (c :: rest) with
    | some r => some r
    | none => searchFlatArea rest

/-! ### Records, responses and environments -/

/-- A Python dict value in a listing record: string, int, or `None`. -/
inductive Value where
  | s (v : String)
  | n (v : Nat)
  | nil
deriving DecidableEq, Repr

/-- `Option Nat` stored into a dict slot (`None` for absent). -/
def ofNatQ : Option Nat → Value
  | some k => .n k
  | none => .nil

/-- `Option String` stored into a dict slot (`None` for absent). -/
def ofStrQ : Option String → Value
  | some v => .s v
  | none => .nil

/-- A listing record: the Python dict, as an insertion-ordered
key/value list. -/
abbrev ListingRecord := List (String × Value)

/-- The keys of a record, in insertion order. -/
def recKeys (r : ListingRecord) : List String := r.map Prod.fst

/-- Dict lookup. -/
def getVal (r : ListingRecord) (k : String) : Option Value :=
  (r.find? (fun p => p.1 == k)).map Prod.snd

/-- A received HTTP response for a detail page, reduced to the parts the
scraper inspects: the status code, the raw texts of the breadcrumb anchors
selected by `#userweb-map-layout-scroll-content nav ol li a`, and the raw
text of the energy-rank element when one matches. -/
structure HttpResponse where
  status_code : Nat
  breadcrumbs : List String
  energy_rank_tag : Option String
deriving DecidableEq

/-- A detail-page fetch environment. `.error` models `requests.get` raising
(network failure); `.ok` models a received response of any status. -/
abbrev Fetch := String → Except String HttpResponse

/-- The four enrichment fields of `extract_listing_details`. -/
structure ExtraDetails where
  region : Option String
  district : Option String
  city : Option String
  energy_rank : Option String
deriving DecidableEq

/-- All four enrichment fields absent. -/
def noDetails : ExtraDetails := ⟨none, none, none, none⟩

/-- `extract_listing_details` (src/scraper.py:112).  The function performs
`requests.get(url)` — a raising fetch propagates (there is no `try` in the
source) — and on a received non-200 response returns the all-`None` record;
otherwise it strips the breadcrumb texts and takes positions 3, 4, 5 as
Region, District, City, and the stripped energy-rank text when present. -/
def extract_listing_details (fetch : Fetch) (url : String) :
    Except String ExtraDetails :=
  match fetch url with
  | .error e => .error e
  | .ok response =>
    if response.status_code ≠ 200 then .ok noDetails
    else
      let location_parts := response.breadcrumbs.map pyStripS
      .ok { region := location_parts.get? 3
            district := location_parts.get? 4
            city := location_parts.get? 5
            energy_rank := response.energy_rank_tag.map pyStripS }

/-- `parse_house` (src/scraper.py:157): area regex on the title, then the
enrichment fetch, then the 12-field House dict in source order. -/
def parse_house (fetch : Fetch) (title location : String) (price : Option Nat)
    (link image_url : String) : Except String ListingRecord :=
  let m := searchHouseArea title.data
  let usable_area : Option Nat := m.map Prod.fst
  let land_size : Option Nat := m.map Prod.snd
  match extract_listing_details fetch link with
  | .error e => .error e
  | .ok extra_details =>
    .ok [("Title", .s title),
         ("Property Type", .s "House"),
         ("Usable Area (m²)", ofNatQ usable_area),
         ("Land Size (m²)", ofNatQ land_size),
         ("Location", .s location),
         ("Region", ofStrQ extra_details.region),
         ("District", ofStrQ extra_details.district),
         ("City", ofStrQ extra_details.city),
         ("Energy Rank", ofStrQ extra_details.energy_rank),
         ("Price (CZK)", ofNatQ price),
         ("URL", .s link),
         ("Image", .s image_url)]

/-- First declared flat type occurring in the title
(src/scraper.py:219, `next((ftype for ftype in VALID_FLAT_TYPES if ftype in
title), None)`). -/
def flatTypeOf (title : String) : Option String :=
  VALID_FLAT_TYPES.find? (fun ftype => occursStr ftype title)

/-- `parse_flat` (src/scraper.py:199): flat area regex and flat-type scan on
the title, then the enrichment fetch, then the 12-field Flat dict in source
order. -/
def parse_flat (fetch : Fetch) (title location : String) (price : Option Nat)
    (link image_url : String) : Except String ListingRecord :=
  let usable_area : Option Nat := searchFlatArea title.data
  let flat_type : Option String := flatTypeOf title
  match extract_listing_details fetch link with
  | .error e => .error e
  | .ok extra_details =>
    .ok [("Title", .s title),
         ("Property Type", .s "Flat"),
         ("Usable Area (m²)", ofNatQ usable_area),
         ("Flat Type", ofStrQ flat_type),
         ("Location", .s location),
         ("Region", ofStrQ extra_details.region),
         ("District", ofStrQ extra_details.district),
         ("City", ofStrQ extra_details.city),
         ("Energy Rank", ofStrQ extra_details.energy_rank),
         ("Price (CZK)", ofNatQ price),
         ("URL", .s link),
         ("Image", .s image_url)]

/-- One listing fragment (`ul > li` subtree), reduced to what the scraper's
selectors read: the texts of all `p.css-d7upve` matches in document order
(`select_one` takes the first as title, index 1 when present as location),
the text of the first `p.css-ca9wwd` match, the `href` of the first
`a[href]`, and the `src` of the first `img.css-1q0j11k` when one matches. -/
structure ListingFragment where
  d7upve : List String
  price_tag : Option String
  link_href : Option String
  img_src : Option String
deriving DecidableEq

/-- The location expression of `parse_listing` (src/scraper.py:264):
`location_tag[1].text.strip() if len(location_tag) > 1 else "Unknown"`,
where `location_tag` is the full `p.css-d7upve` list, so the element at
index 1 is the head of the list's tail. -/
def locOf (trest : List String) : String :=
  match trest.head? with
  | some t1 => pyStripS t1
  | none => "Unknown"

/-- The image expression of `parse_listing` (src/scraper.py:267):
`"https:" + img_tag["src"] if img_tag else "No image"`. -/
def imgOf (img_src : Option String) : String :=
  match img_src with
  | some src => "https:" ++ src
  | none => "No image"

/-- `parse_listing` (src/scraper.py:241).  Yields `.ok none` for a skipped
fragment, `.ok (some record)` for an extracted record, and `.error` only when
the enrichment fetch inside `parse_house`/`parse_flat` raises. -/
def parse_listing (fetch : Fetch) (listing : ListingFragment)
    (estate_type : String) : Except String (Option ListingRecord) :=
  match listing.d7upve, listing.price_tag, listing.link_href with
  | t0 :: trest, some ptext, some href =>
    let title := pyStripS t0
    let location := locOf trest
    let price := clean_price (pyStripS ptext)
    let link := "https://www.sreality.cz" ++ href
    let image_url := imgOf listing.img_src
    if estate_type = "domy" then
      (parse_house fetch title location price link image_url).map some
    else if estate_type = "byty" then
      (parse_flat fetch title location price link image_url).map some
    else .ok none
  | _, _, _ => .ok none

/-! ### Page fetching and orchestration -/

/-- A received listing-index page, reduced to what the scraper inspects: the
status code and the `ul > li` fragments in document order. -/
structure PageResponse where
  status_code : Nat
  items : List ListingFragment
deriving DecidableEq

/-- A page fetch environment, `.error` modelling a raising `requests.get`. -/
abbrev PFetch := String → Except String PageResponse

/-- Listing-index URL construction (src/scraper.py:295): the region segment
is omitted entirely when the region is `"all"`. -/
def build_url (estate_type region : String) (page : Nat) : String :=
  if region ≠ "all" then
    "https://www.sreality.cz/hledani/prodej/" ++ estate_type ++ "/" ++ region ++
      "?page=" ++ Nat.repr page
  else
    "https://www.sreality.cz/hledani/prodej/" ++ estate_type ++ "?page=" ++
      Nat.repr page

/-- The extraction loop of `get_listings` (src/scraper.py:313): apply
`parse_listing` to every fragment in document order, keeping the non-empty
results; an exception from any `parse_listing` call propagates. -/
def collectL (fetch : Fetch) (estate_type : String) :
    List ListingFragment → Except String (List ListingRecord)
  | [] => .ok []
  | item :: rest =>
    match parse_listing fetch item estate_type with
    | .error e => .error e
    | .ok none => collectL fetch estate_type rest
    | .ok (some r) => (collectL fetch estate_type rest).map (r :: ·)

/-- Modelled from the spec's words for the success contract of the Page
Fetcher: "iterates every top-level list-item node in the page's primary
listing container and applies the Listing Extractor to each, collecting all
non-empty results in document order".  Used as the reference side of the
refinement proof about `collectL`. -/
def specPageExtract (fetch : Fetch) (estate_type : String)
    (items : List ListingFragment) : List ListingRecord :=
  items.filterMap (fun item =>
    match parse_listing fetch item estate_type with
    | .ok (some r) => some r
    | _ => none)

/-- `get_listings` (src/scraper.py:278).  Returns the listing records paired
with the console lines printed by this call; a raising page fetch or a
raising enrichment fetch propagates as `.error`. -/
def get_listings (fetch : Fetch) (pfetch : PFetch)
    (estate_type region : String) (page : Nat) :
    Except String (List ListingRecord × List String) :=
  match pfetch (build_url estate_type region page) with
  | .error e => .error e
  | .ok response =>
    if response.status_code ≠ 200 then
      .ok ([], ["Failed to retrieve data (Status Code: " ++
        Nat.repr response.status_code ++ ")"])
    else
      match collectL fetch estate_type response.items with
      | .error e => .error e
      | .ok listings => .ok (listings, [])

/-- Per-page outcome reported by the orchestrator's console prints
(src/scraper.py:352-361). -/
inductive PageOutcome where
  | success (count : Nat)
  | emptyPage
  | failed (msg : String)
deriving DecidableEq, Repr

/-- The result a worker future delivers for one page: the listings of
`get_listings`, or the exception it raised. -/
def pageResult (fetch : Fetch) (pfetch : PFetch) (estate_type region : String)
    (page : Nat) : Except String (List ListingRecord) :=
  (get_listings fetch pfetch estate_type region page).map Prod.fst

/-- The `as_completed` accumulation loop of `scrape_multiple_pages`
(src/scraper.py:346-361): process pages in completion order; a non-empty
result extends the accumulator, an empty result and an exception are only
reported — an exception never cancels the processing of the other pages. -/
def scrapeGo (results : Nat → Except String (List ListingRecord)) :
    List Nat → List ListingRecord × List (Nat × PageOutcome)
  | [] => ([], [])
  | p :: rest =>
    match results p with
    | .ok listings =>
      if listings.isEmpty then
        ((scrapeGo results rest).1, (p, .emptyPage) :: (scrapeGo results rest).2)
      else
        (listings ++ (scrapeGo results rest).1,
          (p, .success listings.length) :: (scrapeGo results rest).2)
    | .error e =>
      ((scrapeGo results rest).1, (p, .failed e) :: (scrapeGo results rest).2)

/-- `scrape_multiple_pages` (src/scraper.py:322).  The futures map pages
`1..pages` to `get_listings` calls; `order` is the completion order in which
`as_completed` yields them (a permutation of `1..pages`).  Returns the
accumulated listings and the per-page reports in completion order. -/
def scrape_multiple_pages (fetch : Fetch) (pfetch : PFetch)
    (estate_type region : String) (pages : Nat) (order : List Nat) :
    List ListingRecord × List (Nat × PageOutcome) :=
  let _ := pages
  scrapeGo (pageResult fetch pfetch estate_type region) order

/-! ### The `__main__` block and the output header -/

/-- Observable outcome of one program run: the process exit status, whether
an output file was written, and whether the "No data found." message was
printed. -/
structure RunOutcome where
  exitCode : Nat
  fileWritten : Bool
  noDataReported : Bool
deriving DecidableEq, Repr

/-- The `__main__` block (src/scraper.py:367): usage check on the argument
count, `validate_args` (its `ValueError` is caught and leads to
`sys.exit(1)`), the scrape, and then either the CSV write or the
"No data found." report — the no-data branch does not call `sys.exit`, so the
process ends with status 0. -/
def mainRun (fetch : Fetch) (pfetch : PFetch) (order : List Nat)
    (argv : List String) : RunOutcome :=
  match argv with
  | [_prog, a1, a2, a3] =>
    match validate_args a1 a2 a3 with
    | .error _ => ⟨1, false, false⟩
    | .ok (estate_type, region, num_pages) =>
      let data :=
        (scrape_multiple_pages fetch pfetch estate_type region num_pages order).1
      if data.isEmpty then ⟨0, false, true⟩ else ⟨0, true, false⟩
  | _ => ⟨1, false, false⟩

/-- The 12 keys of a House record, in insertion order
(src/scraper.py:181-194). -/
def houseFields : List String :=
  ["Title", "Property Type", "Usable Area (m²)", "Land Size (m²)", "Location",
   "Region", "District", "City", "Energy Rank", "Price (CZK)", "URL", "Image"]

/-- The 12 keys of a Flat record, in insertion order
(src/scraper.py:223-236). -/
def flatFields : List String :=
  ["Title", "Property Type", "Usable Area (m²)", "Flat Type", "Location",
   "Region", "District", "City", "Energy Rank", "Price (CZK)", "URL", "Image"]

/-- The column set `pd.DataFrame(data)` derives from a list of dicts: the
union of the records' keys in order of first appearance. -/
def headerOf (data : List ListingRecord) : List String :=
  data.foldl (fun acc r => acc ++ (recKeys r).filter (fun k => !acc.contains k)) []

/-! ## Helper lemmas -/

theorem matchLit_append_self (x : List Char) : ∀ b, matchLit x (x ++ b) = some b := by
  induction x with
  | nil => intro b; rfl
  | cons c cs ih => intro b; simp [matchLit, ih]

theorem occursL_append_self (x b : List Char) : occursL x (x ++ b) = true := by
  cases h : x ++ b with
  | nil =>
    have hx : x = [] := by
      cases x with
      | nil => rfl
      | cons c cs => simp at h
    subst hx; simp [occursL]
  | cons c rest =>
    rw [occursL, ← h, matchLit_append_self]
    simp

theorem occursL_cons_of {x t : List Char} (c : Char) (h : occursL x t = true) :
    occursL x (c :: t) = true := by
  simp [occursL, h]

theorem occursL_mid (a x b : List Char) : occursL x (a ++ x ++ b) = true := by
  induction a with
  | nil => simpa using occursL_append_self x b
  | cons c cs ih => simpa using occursL_cons_of c (by simpa using ih)

theorem occursStr_mid (pre mid post : String) :
    occursStr mid (pre ++ mid ++ post) = true := by
  have : (pre ++ mid ++ post).data = pre.data ++ mid.data ++ post.data := by
    simp [String.data_append]
  simpa [occursStr, this] using occursL_mid pre.data mid.data post.data

theorem runsAux_flatten (l : List Char) :
    ∀ cur, (runsAux l cur).flatten = cur.reverse ++ l.filter Char.isDigit := by
  induction l with
  | nil =>
    intro cur
    by_cases h : cur.isEmpty
    · have : cur = [] := by simpa [List.isEmpty_iff] using h
      simp [runsAux, h, this]
    · simp [runsAux, h]
  | cons c rest ih =>
    intro cur
    by_cases hc : c.isDigit
    · simp [runsAux, hc, ih]
    · by_cases hcur : cur.isEmpty
      · have : cur = [] := by simpa [List.isEmpty_iff] using hcur
        simp [runsAux, hc, hcur, this, ih]
      · simp [runsAux, hc, hcur, ih]

theorem runsAux_eq_nil (l : List Char) :
    ∀ cur, runsAux l cur = [] ↔ (cur = [] ∧ l.filter Char.isDigit = []) := by
  induction l with
  | nil =>
    intro cur
    by_cases h : cur.isEmpty
    · have : cur = [] := by simpa [List.isEmpty_iff] using h
      simp [runsAux, h, this]
    · have : ¬ cur = [] := by simpa [List.isEmpty_iff] using h
      simp [runsAux, h, this]
  | cons c rest ih =>
    intro cur
    by_cases hc : c.isDigit
    · rw [runsAux, if_pos hc]
      simp [ih, hc]
    · by_cases hcur : cur.isEmpty
      · have hcur' : cur = [] := by simpa [List.isEmpty_iff] using hcur
        rw [runsAux, if_neg hc, if_pos hcur]
        simp [ih, hc, hcur']
      · have hcur' : ¬ cur = [] := by simpa [List.isEmpty_iff] using hcur
        rw [runsAux, if_neg hc, if_neg hcur]
        simp [hcur']

/-! ## C4: price cleanup -/

/-- **C4.** `clean_price` returns the integer obtained by concatenating, in
order of appearance, all maximal digit runs of the input (equivalently: the
decimal value of the input's digit characters in order), and `None` when the
input contains no digit; `"5 200 000 Kč"` yields `5200000` and
`"Price on request"` yields `None`. -/
theorem c4_clean_price :
    (∀ s : String, clean_price s =
      (if s.data.any Char.isDigit then
        some (natOfDigits (s.data.filter Char.isDigit)) else none))
    ∧ clean_price "5 200 000 Kč" = some 5200000
    ∧ clean_price "Price on request" = none := by
  refine ⟨fun s => ?_, by decide, by decide⟩
  rw [clean_price]
  by_cases h : s.data.any Char.isDigit
  · have hne : ¬ runsAux s.data [] = [] := by
      rw [runsAux_eq_nil]
      intro ⟨_, hfil⟩
      rw [List.filter_eq_nil_iff] at hfil
      rw [List.any_eq_true] at h
      obtain ⟨c, hc, hdig⟩ := h
      exact (hfil c hc) hdig
    have hflat : (runsAux s.data []).flatten = s.data.filter Char.isDigit := by
      simpa using runsAux_flatten s.data []
    simp [h, List.isEmpty_iff, hne, hflat]
  · have : runsAux s.data [] = [] := by
      rw [runsAux_eq_nil]
      refine ⟨rfl, ?_⟩
      rw [List.filter_eq_nil_iff]
      intro c hc hdig
      exact h (List.any_eq_true.mpr ⟨c, hc, hdig⟩)
    simp [h, List.isEmpty_iff, this]

/-! ## C7: argument validation -/

/-- **C7.** `validate_args` succeeds exactly when the estate type is one of
the two allowed values, the region is in the 14-item list or is `"all"`, and
the page count is a digit string with positive value; on success it returns
the triple unchanged apart from the string-to-integer conversion of the page
count; on each violation it fails with the `ValueError` message that embeds
the offending value and the allowed set (the last conjunct shows every value
embedded that way occurs in the message). -/
theorem c7_validate_args :
    (∀ et rg p, (∃ out, validate_args et rg p = .ok out) ↔
      (et ∈ VALID_ESTATE_TYPES ∧ (rg = "all" ∨ rg ∈ VALID_REGIONS) ∧
        pyIsdigit p = true ∧ 0 < natOfDigits p.data))
    ∧ (∀ et rg p out, validate_args et rg p = .ok out →
        out = (et, rg, natOfDigits p.data))
    ∧ (∀ et rg p, et ∉ VALID_ESTATE_TYPES →
        validate_args et rg p = .error ("Invalid estate type: " ++ et ++
          ". Allowed: " ++ pyListRepr VALID_ESTATE_TYPES))
    ∧ (∀ et rg p, et ∈ VALID_ESTATE_TYPES → rg ≠ "all" → rg ∉ VALID_REGIONS →
        validate_args et rg p = .error ("Invalid region: " ++ rg ++
          ". Allowed: " ++ pyListRepr VALID_REGIONS ++ " or " ++ pyQuote ++
          "all" ++ pyQuote ++ "."))
    ∧ (∀ et rg p, et ∈ VALID_ESTATE_TYPES → (rg = "all" ∨ rg ∈ VALID_REGIONS) →
        ¬(pyIsdigit p = true ∧ 0 < natOfDigits p.data) →
        validate_args et rg p = .error ("Pages must be a positive integer, got: " ++ p))
    ∧ (∀ pre mid post : String, occursStr mid (pre ++ mid ++ post) = true) := by
  refine ⟨fun et rg p => ?_, fun et rg p out h => ?_, fun et rg p h => ?_,
    fun et rg p h1 h2 h3 => ?_, fun et rg p h1 h2 h3 => ?_, occursStr_mid⟩
  · rw [validate_args]
    split
    · rename_i h
      simp [h]
    · split
      · rename_i h h2
        constructor
        · rintro ⟨out, hout⟩
          simp at hout
        · rintro ⟨_, hrg, _⟩
          rcases h2 with ⟨hne, hnotin⟩
          rcases hrg with hall | hin
          · exact absurd hall hne
          · exact absurd hin hnotin
      · split
        · rename_i h h2 h3
          constructor
          · rintro ⟨out, hout⟩
            simp at hout
          · rintro ⟨_, _, hd, hp⟩
            exact absurd ⟨hd, hp⟩ h3
        · rename_i h h2 h3
          constructor
          · intro _
            refine ⟨not_not.mp h, ?_, not_not.mp h3⟩
            by_cases hall : rg = "all"
            · exact Or.inl hall
            · rcases not_and.mp h2 hall with hin
              exact Or.inr (not_not.mp hin)
          · intro _
            exact ⟨_, rfl⟩
  · rw [validate_args] at h
    split at h
    · simp at h
    · split at h
      · simp at h
      · split at h
        · simp at h
        · simp at h
          exact h.symm
  · rw [validate_args, if_pos h]
  · rw [validate_args, if_neg (not_not.mpr h1), if_pos ⟨h2, h3⟩]
  · rw [validate_args, if_neg (not_not.mpr h1)]
    have : ¬(rg ≠ "all" ∧ rg ∉ VALID_REGIONS) := by
      rcases h2 with hall | hin
      · intro ⟨hne, _⟩; exact hne hall
      · intro ⟨_, hnot⟩; exact hnot hin
    rw [if_neg this, if_pos h3]

/-- Witness for C7: the invalid estate type `"garaze"` is rejected with the
message embedding the value and the allowed list. -/
theorem c7_validate_args_witness :
    validate_args "garaze" "praha" "3" = .error ("Invalid estate type: " ++
      "garaze" ++ ". Allowed: " ++ pyListRepr VALID_ESTATE_TYPES) :=
  c7_validate_args.2.2.1 "garaze" "praha" "3" (by decide)

theorem find?_minIdx {α : Type} [DecidableEq α] (p : α → Bool) :
    ∀ (L : List α) (a : α), L.find? p = some a →
      a ∈ L ∧ p a = true ∧
        ∀ b ∈ L, p b = true → L.indexOf a ≤ L.indexOf b := by
  intro L
  induction L with
  | nil => intro a h; simp at h
  | cons x rest ih =>
    intro a h
    by_cases hp : p x
    · rw [List.find?_cons_of_pos _ hp] at h
      obtain rfl : x = a := by simpa using h
      refine ⟨List.mem_cons_self _ _, hp, ?_⟩
      intro b _ _
      simp [List.indexOf_cons_self]
    · rw [List.find?_cons_of_neg _ hp] at h
      obtain ⟨hmem, hpa, hmin⟩ := ih a h
      have hax : x ≠ a := fun hxa => hp (hxa ▸ hpa)
      refine ⟨List.mem_cons_of_mem _ hmem, hpa, ?_⟩
      intro b hb hpb
      have hbx : x ≠ b := fun hxb => hp (hxb ▸ hpb)
      have hb' : b ∈ rest := by
        rcases List.mem_cons.mp hb with h1 | h1
        · exact absurd h1.symm hbx
        · exact h1
      rw [List.indexOf_cons_ne _ hax, List.indexOf_cons_ne _ hbx]
      exact Nat.succ_le_succ (hmin b hb' hpb)

/-! ## C5: house area parsing -/

/-- **C5.** `parse_house` fills Usable Area and Land Size from the first and
second capture of the leftmost match of `(\d+)\s*m².*?pozemek\s*(\d+)\s*m²`
on the title (embedded as `searchHouseArea`), and leaves both absent when the
pattern does not match; `"Dům 120 m², pozemek 450 m²"` gives 120 and 450, and
the pattern is case-sensitive (`POZEMEK` does not match) and order-sensitive
(land area first does not match). -/
theorem c5_parse_house_area :
    (∀ (fetch : Fetch) (title location : String) (price : Option Nat)
        (link image_url : String) (r : ListingRecord),
      parse_house fetch title location price link image_url = .ok r →
        getVal r "Usable Area (m²)" =
          some (ofNatQ ((searchHouseArea title.data).map Prod.fst)) ∧
        getVal r "Land Size (m²)" =
          some (ofNatQ ((searchHouseArea title.data).map Prod.snd)))
    ∧ (∀ (fetch : Fetch) (title location : String) (price : Option Nat)
        (link image_url : String) (r : ListingRecord),
      searchHouseArea title.data = none →
      parse_house fetch title location price link image_url = .ok r →
        getVal r "Usable Area (m²)" = some Value.nil ∧
        getVal r "Land Size (m²)" = some Value.nil)
    ∧ searchHouseArea "Dům 120 m², pozemek 450 m²".data = some (120, 450)
    ∧ searchHouseArea "Dům 120 m², POZEMEK 450 m²".data = none
    ∧ searchHouseArea "pozemek 450 m² a 120 m²".data = none := by
  have key : ∀ (fetch : Fetch) (title location : String) (price : Option Nat)
      (link image_url : String) (r : ListingRecord),
      parse_house fetch title location price link image_url = .ok r →
        getVal r "Usable Area (m²)" =
          some (ofNatQ ((searchHouseArea title.data).map Prod.fst)) ∧
        getVal r "Land Size (m²)" =
          some (ofNatQ ((searchHouseArea title.data).map Prod.snd)) := by
    intro fetch title location price link image_url r h
    rw [parse_house] at h
    split at h
    · exact absurd h (by simp)
    · obtain rfl : _ = r := by simpa using h
      exact ⟨rfl, rfl⟩
  refine ⟨key, ?_, by decide, by decide, by decide⟩
  intro fetch title location price link image_url r hnone h
  have := key fetch title location price link image_url r h
  rw [hnone] at this
  simpa [ofNatQ] using this

/-- Witness for C5: a concrete house record built under an enrichment fetch
that yields a 404 carries the two parsed areas. -/
theorem c5_parse_house_area_witness :
    getVal [("Title", Value.s "Dům 120 m², pozemek 450 m²"),
      ("Property Type", Value.s "House"),
      ("Usable Area (m²)", Value.n 120), ("Land Size (m²)", Value.n 450),
      ("Location", Value.s "Praha"), ("Region", Value.nil),
      ("District", Value.nil), ("City", Value.nil), ("Energy Rank", Value.nil),
      ("Price (CZK)", Value.nil), ("URL", Value.s "u"), ("Image", Value.s "i")]
      "Usable Area (m²)" = some (ofNatQ ((searchHouseArea
        "Dům 120 m², pozemek 450 m²".data).map Prod.fst)) := by
  exact (c5_parse_house_area.1 (fun _ => .ok ⟨404, [], none⟩)
    "Dům 120 m², pozemek 450 m²" "Praha" none "u" "i"
    [("Title", Value.s "Dům 120 m², pozemek 450 m²"),
      ("Property Type", Value.s "House"),
      ("Usable Area (m²)", Value.n 120), ("Land Size (m²)", Value.n 450),
      ("Location", Value.s "Praha"), ("Region", Value.nil),
      ("District", Value.nil), ("City", Value.nil), ("Energy Rank", Value.nil),
      ("Price (CZK)", Value.nil), ("URL", Value.s "u"), ("Image", Value.s "i")]
    (by rfl)).1

/-! ## C6: flat area and flat type parsing -/

/-- **C6.** `parse_flat` fills Usable Area from the first match of
`(\d+)\s*m²` (embedded as `searchFlatArea`) and Flat Type from the
earliest-declared member of `VALID_FLAT_TYPES` occurring as a substring of
the title (absent if none occurs); in particular a title containing both
`"1+1"` and `"2+kk"` resolves to `"1+1"`, the earlier-declared code. -/
theorem c6_parse_flat_fields :
    (∀ (fetch : Fetch) (title location : String) (price : Option Nat)
        (link image_url : String) (r : ListingRecord),
      parse_flat fetch title location price link image_url = .ok r →
        getVal r "Usable Area (m²)" = some (ofNatQ (searchFlatArea title.data)) ∧
        getVal r "Flat Type" = some (ofStrQ (flatTypeOf title)))
    ∧ (∀ title f, flatTypeOf title = some f →
        f ∈ VALID_FLAT_TYPES ∧ occursStr f title = true ∧
        ∀ g ∈ VALID_FLAT_TYPES, occursStr g title = true →
          VALID_FLAT_TYPES.indexOf f ≤ VALID_FLAT_TYPES.indexOf g)
    ∧ (∀ title, (∀ g ∈ VALID_FLAT_TYPES, occursStr g title = false) →
        flatTypeOf title = none)
    ∧ searchFlatArea "Bytová jednotka 2+kk 55 m²".data = some 55
    ∧ flatTypeOf "Bytová jednotka 2+kk 55 m²" = some "2+kk"
    ∧ flatTypeOf "Byt 1+1 nebo 2+kk, 55 m²" = some "1+1"
    ∧ occursStr "1+1" "Byt 1+1 nebo 2+kk, 55 m²" = true
    ∧ occursStr "2+kk" "Byt 1+1 nebo 2+kk, 55 m²" = true := by
  refine ⟨?_, ?_, ?_, by decide, by decide, by decide, by decide, by decide⟩
  · intro fetch title location price link image_url r h
    rw [parse_flat] at h
    split at h
    · exact absurd h (by simp)
    · obtain rfl : _ = r := by simpa using h
      exact ⟨rfl, rfl⟩
  · intro title f h
    exact find?_minIdx _ VALID_FLAT_TYPES f h
  · intro title h
    rw [flatTypeOf, List.find?_eq_none]
    intro g hg
    simp [h g hg]

/-- Witness for C6: a concrete flat record built under an enrichment fetch
that yields a 404 carries the parsed area and flat type. -/
theorem c6_parse_flat_fields_witness :
    getVal [("Title", Value.s "Bytová jednotka 2+kk 55 m²"),
      ("Property Type", Value.s "Flat"),
      ("Usable Area (m²)", Value.n 55), ("Flat Type", Value.s "2+kk"),
      ("Location", Value.s "Praha"), ("Region", Value.nil),
      ("District", Value.nil), ("City", Value.nil), ("Energy Rank", Value.nil),
      ("Price (CZK)", Value.nil), ("URL", Value.s "u"), ("Image", Value.s "i")]
      "Flat Type" = some (ofStrQ (flatTypeOf "Bytová jednotka 2+kk 55 m²")) := by
  exact (c6_parse_flat_fields.1 (fun _ => .ok ⟨404, [], none⟩)
    "Bytová jednotka 2+kk 55 m²" "Praha" none "u" "i"
    [("Title", Value.s "Bytová jednotka 2+kk 55 m²"),
      ("Property Type", Value.s "Flat"),
      ("Usable Area (m²)", Value.n 55), ("Flat Type", Value.s "2+kk"),
      ("Location", Value.s "Praha"), ("Region", Value.nil),
      ("District", Value.nil), ("City", Value.nil), ("Energy Rank", Value.nil),
      ("Price (CZK)", Value.nil), ("URL", Value.s "u"), ("Image", Value.s "i")]
    (by rfl)).2

theorem extract_ok {fetch : Fetch} {url : String} (h : (fetch url).isOk = true) :
    ∃ d, extract_listing_details fetch url = .ok d := by
  cases hf : fetch url with
  | error e => rw [hf] at h; simp [Except.isOk, Except.toBool] at h
  | ok resp =>
    by_cases hs : resp.status_code ≠ 200
    · exact ⟨noDetails, by rw [extract_listing_details, hf]; simp [hs]⟩
    · refine ⟨⟨(resp.breadcrumbs.map pyStripS).get? 3,
        (resp.breadcrumbs.map pyStripS).get? 4,
        (resp.breadcrumbs.map pyStripS).get? 5,
        resp.energy_rank_tag.map pyStripS⟩, ?_⟩
      rw [extract_listing_details, hf]
      simp [hs]

theorem parse_house_eq (fetch : Fetch) (title location : String)
    (price : Option Nat) (link image_url : String) (d : ExtraDetails)
    (hd : extract_listing_details fetch link = .ok d) :
    parse_house fetch title location price link image_url =
      .ok [("Title", .s title),
        ("Property Type", .s "House"),
        ("Usable Area (m²)", ofNatQ ((searchHouseArea title.data).map Prod.fst)),
        ("Land Size (m²)", ofNatQ ((searchHouseArea title.data).map Prod.snd)),
        ("Location", .s location),
        ("Region", ofStrQ d.region),
        ("District", ofStrQ d.district),
        ("City", ofStrQ d.city),
        ("Energy Rank", ofStrQ d.energy_rank),
        ("Price (CZK)", ofNatQ price),
        ("URL", .s link),
        ("Image", .s image_url)] := by
  rw [parse_house, hd]

theorem parse_flat_eq (fetch : Fetch) (title location : String)
    (price : Option Nat) (link image_url : String) (d : ExtraDetails)
    (hd : extract_listing_details fetch link = .ok d) :
    parse_flat fetch title location price link image_url =
      .ok [("Title", .s title),
        ("Property Type", .s "Flat"),
        ("Usable Area (m²)", ofNatQ (searchFlatArea title.data)),
        ("Flat Type", ofStrQ (flatTypeOf title)),
        ("Location", .s location),
        ("Region", ofStrQ d.region),
        ("District", ofStrQ d.district),
        ("City", ofStrQ d.city),
        ("Energy Rank", ofStrQ d.energy_rank),
        ("Price (CZK)", ofNatQ price),
        ("URL", .s link),
        ("Image", .s image_url)] := by
  rw [parse_flat, hd]

theorem parse_listing_incomplete (fetch : Fetch) (frag : ListingFragment)
    (estate_type : String)
    (h : ¬(frag.d7upve ≠ [] ∧ frag.price_tag.isSome = true ∧
      frag.link_href.isSome = true)) :
    parse_listing fetch frag estate_type = .ok none := by
  obtain ⟨d7, pt, lh, im⟩ := frag
  cases d7 with
  | nil => rfl
  | cons t0 trest =>
    cases pt with
    | none => rfl
    | some p0 =>
      cases lh with
      | none => rfl
      | some h0 => exact absurd ⟨by simp, by simp, by simp⟩ h

theorem parse_house_getVals (fetch : Fetch) (title location : String)
    (price : Option Nat) (link image_url : String) (d : ExtraDetails)
    (hd : extract_listing_details fetch link = .ok d) :
    ∃ rec, parse_house fetch title location price link image_url = .ok rec ∧
      getVal rec "Location" = some (.s location) ∧
      getVal rec "Image" = some (.s image_url) :=
  ⟨_, parse_house_eq fetch title location price link image_url d hd, rfl, rfl⟩

theorem parse_flat_getVals (fetch : Fetch) (title location : String)
    (price : Option Nat) (link image_url : String) (d : ExtraDetails)
    (hd : extract_listing_details fetch link = .ok d) :
    ∃ rec, parse_flat fetch title location price link image_url = .ok rec ∧
      getVal rec "Location" = some (.s location) ∧
      getVal rec "Image" = some (.s image_url) :=
  ⟨_, parse_flat_eq fetch title location price link image_url d hd, rfl, rfl⟩

/-! ## C3: listing extraction -/

/-- **C3.** With a non-raising enrichment environment and a valid estate
type, `parse_listing` yields a record exactly when the fragment has a title
element (equivalently, at least one location-labeled `p.css-d7upve` element —
the title is the first of them), a price element and a link element; on a
yielded record the Location field is `locOf` of the remaining
location-labeled elements — the stripped text of the second one when present
and `"Unknown"` otherwise — and the Image field is `imgOf` of the image
element — `"No image"` when the fragment has no image element; any fragment
missing a mandatory element produces no record. -/
theorem c3_parse_listing :
    ∀ (fetch : Fetch) (frag : ListingFragment) (estate_type : String),
      (estate_type = "domy" ∨ estate_type = "byty") →
      (∀ u, (fetch u).isOk = true) →
      ((∃ r, parse_listing fetch frag estate_type = .ok (some r)) ↔
        (frag.d7upve ≠ [] ∧ frag.price_tag.isSome = true ∧
          frag.link_href.isSome = true))
      ∧ (∀ r, parse_listing fetch frag estate_type = .ok (some r) →
          getVal r "Location" = some (.s (locOf frag.d7upve.tail)) ∧
          getVal r "Image" = some (.s (imgOf frag.img_src)))
      ∧ (∀ t1 rest2, locOf (t1 :: rest2) = pyStripS t1)
      ∧ locOf [] = "Unknown"
      ∧ imgOf none = "No image"
      ∧ (¬(frag.d7upve ≠ [] ∧ frag.price_tag.isSome = true ∧
            frag.link_href.isSome = true) →
          parse_listing fetch frag estate_type = .ok none) := by
  intro fetch frag estate_type het hfetch
  by_cases hc : frag.d7upve ≠ [] ∧ frag.price_tag.isSome = true ∧
      frag.link_href.isSome = true
  · obtain ⟨d7, pt, lh, im⟩ := frag
    obtain ⟨hd7, hpt, hlh⟩ := hc
    cases d7 with
    | nil => exact absurd rfl hd7
    | cons t0 trest =>
      cases pt with
      | none => simp at hpt
      | some p0 =>
        cases lh with
        | none => simp at hlh
        | some h0 =>
          clear hd7 hpt hlh
          obtain ⟨d, hd⟩ := extract_ok (hfetch ("https://www.sreality.cz" ++ h0))
          have hsome : ∃ rec, parse_listing fetch
              ⟨t0 :: trest, some p0, some h0, im⟩ estate_type = .ok (some rec) ∧
              getVal rec "Location" = some (.s (locOf trest)) ∧
              getVal rec "Image" = some (.s (imgOf im)) := by
            rcases het with rfl | rfl
            · obtain ⟨rec, hrec, hlocv, himgv⟩ := parse_house_getVals fetch
                (pyStripS t0) (locOf trest) (clean_price (pyStripS p0))
                ("https://www.sreality.cz" ++ h0) (imgOf im) d hd
              refine ⟨rec, ?_, hlocv, himgv⟩
              have hb : parse_listing fetch ⟨t0 :: trest, some p0, some h0, im⟩
                  "domy" =
                  (parse_house fetch (pyStripS t0) (locOf trest)
                    (clean_price (pyStripS p0)) ("https://www.sreality.cz" ++ h0)
                    (imgOf im)).map some := rfl
              rw [hb, hrec]
              rfl
            · obtain ⟨rec, hrec, hlocv, himgv⟩ := parse_flat_getVals fetch
                (pyStripS t0) (locOf trest) (clean_price (pyStripS p0))
                ("https://www.sreality.cz" ++ h0) (imgOf im) d hd
              refine ⟨rec, ?_, hlocv, himgv⟩
              have hb : parse_listing fetch ⟨t0 :: trest, some p0, some h0, im⟩
                  "byty" =
                  (parse_flat fetch (pyStripS t0) (locOf trest)
                    (clean_price (pyStripS p0)) ("https://www.sreality.cz" ++ h0)
                    (imgOf im)).map some := rfl
              rw [hb, hrec]
              rfl
          obtain ⟨rec, hrec, hlocv, himgv⟩ := hsome
          refine ⟨⟨fun _ => ⟨by simp, rfl, rfl⟩, fun _ => ⟨rec, hrec⟩⟩, ?_,
            fun t1 rest2 => rfl, rfl, rfl,
            fun hin => absurd ⟨by simp, rfl, rfl⟩ hin⟩
          intro r hr
          rw [hrec] at hr
          obtain rfl : rec = r := by simpa using hr
          exact ⟨hlocv, himgv⟩
  · have hnone := parse_listing_incomplete fetch frag estate_type hc
    refine ⟨⟨?_, fun h => absurd h hc⟩, ?_, fun t1 rest2 => rfl, rfl, rfl,
      fun _ => hnone⟩
    · rintro ⟨r, hr⟩
      rw [hnone] at hr
      simp at hr
    · intro r hr
      rw [hnone] at hr
      simp at hr

/-- Witness for C3: a fragment missing its price element yields no record. -/
theorem c3_parse_listing_witness :
    parse_listing (fun _ => .ok ⟨404, [], none⟩)
      ⟨["Byt 2+kk 55 m²", "Praha"], none, some "/d", none⟩ "byty" = .ok none :=
  (c3_parse_listing (fun _ => .ok ⟨404, [], none⟩)
    ⟨["Byt 2+kk 55 m²", "Praha"], none, some "/d", none⟩ "byty"
    (Or.inr rfl) (fun _ => rfl)).2.2.2.2.2 (by simp)

theorem parse_listing_ok (fetch : Fetch) (frag : ListingFragment) (et : String)
    (hfetch : ∀ u, (fetch u).isOk = true) :
    ∃ o, parse_listing fetch frag et = .ok o := by
  by_cases hc : frag.d7upve ≠ [] ∧ frag.price_tag.isSome = true ∧
      frag.link_href.isSome = true
  · obtain ⟨d7, pt, lh, im⟩ := frag
    obtain ⟨hd7, hpt, hlh⟩ := hc
    cases d7 with
    | nil => exact absurd rfl hd7
    | cons t0 trest =>
      cases pt with
      | none => simp at hpt
      | some p0 =>
        cases lh with
        | none => simp at hlh
        | some h0 =>
          clear hd7 hpt hlh
          obtain ⟨d, hd⟩ := extract_ok (hfetch ("https://www.sreality.cz" ++ h0))
          have hb : parse_listing fetch ⟨t0 :: trest, some p0, some h0, im⟩ et =
              (if et = "domy" then
                (parse_house fetch (pyStripS t0) (locOf trest)
                  (clean_price (pyStripS p0)) ("https://www.sreality.cz" ++ h0)
                  (imgOf im)).map some
              else if et = "byty" then
                (parse_flat fetch (pyStripS t0) (locOf trest)
                  (clean_price (pyStripS p0)) ("https://www.sreality.cz" ++ h0)
                  (imgOf im)).map some
              else .ok none) := rfl
          rw [hb]
          by_cases h1 : et = "domy"
          · rw [if_pos h1,
              parse_house_eq fetch _ _ _ _ _ d hd]
            exact ⟨_, rfl⟩
          · rw [if_neg h1]
            by_cases h2 : et = "byty"
            · rw [if_pos h2, parse_flat_eq fetch _ _ _ _ _ d hd]
              exact ⟨_, rfl⟩
            · rw [if_neg h2]
              exact ⟨none, rfl⟩
  · exact ⟨none, parse_listing_incomplete fetch frag et hc⟩

theorem collectL_spec (fetch : Fetch) (et : String) :
    ∀ items : List ListingFragment,
      (∀ i ∈ items, (parse_listing fetch i et).isOk = true) →
      collectL fetch et items = .ok (specPageExtract fetch et items) := by
  intro items
  induction items with
  | nil => intro _; rfl
  | cons i rest ih =>
    intro h
    have hi := h i (List.mem_cons_self i rest)
    have hrest := ih (fun j hj => h j (List.mem_cons_of_mem i hj))
    cases hpi : parse_listing fetch i et with
    | error e => rw [hpi] at hi; simp [Except.isOk, Except.toBool] at hi
    | ok o =>
      cases o with
      | none =>
        rw [collectL, hpi, hrest]
        simp [specPageExtract, List.filterMap_cons, hpi]
      | some r =>
        rw [collectL, hpi, hrest]
        simp only [specPageExtract, List.filterMap_cons, hpi]
        rfl

/-! ## C2: detail enrichment (corrected) -/

/-- **C2 counterexample.** The claim says the Detail Enricher never raises
past its boundary and an enrichment failure never aborts the page scrape.
But `extract_listing_details` has no exception handling around its
`requests.get`: when the fetch itself raises (modelled by an `.error`
environment), the exception propagates out of the enricher

and, through `parse_flat` and `parse_listing`, aborts the whole
`get_listings` call for the page. -/
theorem c2_counterexample :
    extract_listing_details (fun _ => .error "requests.exceptions.ConnectionError")
      "https://www.sreality.cz/detail/1" =
      .error "requests.exceptions.ConnectionError"
    ∧ pageResult (fun _ => .error "requests.exceptions.ConnectionError")
        (fun _ => .ok ⟨200, [⟨["Byt 2+kk 55 m²"], some "5 200 000 Kč",
          some "/d", none⟩]⟩) "byty" "praha" 1 =
      .error "requests.exceptions.ConnectionError" :=
  ⟨rfl, rfl⟩

/-- **C2 (amended).** On every received detail-page response with a
non-success status, `extract_listing_details` returns the record with all
four enrichment fields absent (not an error), and as long as the enrichment
fetches return responses — of any status — no page scrape is aborted; only a
fetch that itself raises propagates out of the enricher (second conjunct),
which is what the counterexample exhibits. -/
theorem c2_extract_details_amended :
    (∀ (fetch : Fetch) (url : String) (resp : HttpResponse),
      fetch url = .ok resp → resp.status_code ≠ 200 →
      extract_listing_details fetch url = .ok noDetails)
    ∧ (∀ (fetch : Fetch) (url : String) (e : String),
      fetch url = .error e → extract_listing_details fetch url = .error e)
    ∧ (∀ (fetch : Fetch) (pfetch : PFetch) (estate_type region : String)
        (page : Nat),
      (∀ u, (fetch u).isOk = true) →
      (pfetch (build_url estate_type region page)).isOk = true →
      (get_listings fetch pfetch estate_type region page).isOk = true) := by
  refine ⟨fun fetch url resp h hs => ?_, fun fetch url e h => ?_,
    fun fetch pfetch estate_type region page hf hp => ?_⟩
  · rw [extract_listing_details, h]
    simp [hs]
  · rw [extract_listing_details, h]
  · cases hpv : pfetch (build_url estate_type region page) with
    | error e => rw [hpv] at hp; simp [Except.isOk, Except.toBool] at hp
    | ok resp =>
      rw [get_listings, hpv]
      dsimp only
      by_cases hs : resp.status_code ≠ 200
      · simp [hs, Except.isOk, Except.toBool]
      · have hall : ∀ i ∈ resp.items, (parse_listing fetch i estate_type).isOk = true := by
          intro i _
          obtain ⟨o, ho⟩ := parse_listing_ok fetch i estate_type hf
          rw [ho]
          rfl
        rw [if_neg hs, collectL_spec fetch estate_type resp.items hall]
        rfl

/-- Witness for the amended C2: a 404 detail response yields the all-absent
enrichment record. -/
theorem c2_extract_details_amended_witness :
    extract_listing_details (fun _ => .ok ⟨404, [], none⟩)
      "https://www.sreality.cz/detail/1" = .ok noDetails :=
  c2_extract_details_amended.1 (fun _ => .ok ⟨404, [], none⟩)
    "https://www.sreality.cz/detail/1" ⟨404, [], none⟩ rfl (by decide)

/-! ## C8: page fetching -/

/-- **C8.** `get_listings` returns the empty collection and prints the
status code (rather than raising) on every received non-success page
response; on a success response it returns exactly the non-empty
`parse_listing` results of the page's `ul > li` fragments in document order
(`specPageExtract`, the filterMap the spec describes). -/
theorem c8_get_listings :
    (∀ (fetch : Fetch) (pfetch : PFetch) (estate_type region : String)
        (page : Nat) (resp : PageResponse),
      pfetch (build_url estate_type region page) = .ok resp →
      resp.status_code ≠ 200 →
      get_listings fetch pfetch estate_type region page =
        .ok ([], ["Failed to retrieve data (Status Code: " ++
          Nat.repr resp.status_code ++ ")"]))
    ∧ (∀ (fetch : Fetch) (pfetch : PFetch) (estate_type region : String)
        (page : Nat) (resp : PageResponse),
      pfetch (build_url estate_type region page) = .ok resp →
      resp.status_code = 200 →
      (∀ i ∈ resp.items, (parse_listing fetch i estate_type).isOk = true) →
      get_listings fetch pfetch estate_type region page =
        .ok (specPageExtract fetch estate_type resp.items, [])) := by
  refine ⟨fun fetch pfetch estate_type region page resp hp hs => ?_,
    fun fetch pfetch estate_type region page resp hp hs hall => ?_⟩
  · rw [get_listings, hp]
    dsimp only
    rw [if_pos hs]
  · rw [get_listings, hp]
    dsimp only
    rw [if_neg (by simp [hs]), collectL_spec fetch estate_type resp.items hall]

/-- Witness for C8: a 503 page response yields no records and the printed
status line. -/
theorem c8_get_listings_witness :
    get_listings (fun _ => .ok ⟨404, [], none⟩) (fun _ => .ok ⟨503, []⟩)
      "byty" "praha" 1 =
      .ok ([], ["Failed to retrieve data (Status Code: " ++
        Nat.repr 503 ++ ")"]) :=
  c8_get_listings.1 (fun _ => .ok ⟨404, [], none⟩) (fun _ => .ok ⟨503, []⟩)
    "byty" "praha" 1 ⟨503, []⟩ rfl (by decide)

theorem scrapeGo_cons_error (results : Nat → Except String (List ListingRecord))
    (q : Nat) (rest : List Nat) (e : String) (h : results q = .error e) :
    scrapeGo results (q :: rest) =
      ((scrapeGo results rest).1,
        (q, PageOutcome.failed e) :: (scrapeGo results rest).2) := by
  rw [scrapeGo, h]

theorem scrapeGo_cons_ok_empty (results : Nat → Except String (List ListingRecord))
    (q : Nat) (rest : List Nat) (l : List ListingRecord) (h : results q = .ok l)
    (he : l.isEmpty = true) :
    scrapeGo results (q :: rest) =
      ((scrapeGo results rest).1,
        (q, PageOutcome.emptyPage) :: (scrapeGo results rest).2) := by
  rw [scrapeGo, h]
  simp [he]

theorem scrapeGo_cons_ok_ne (results : Nat → Except String (List ListingRecord))
    (q : Nat) (rest : List Nat) (l : List ListingRecord) (h : results q = .ok l)
    (he : l.isEmpty = false) :
    scrapeGo results (q :: rest) =
      (l ++ (scrapeGo results rest).1,
        (q, PageOutcome.success l.length) :: (scrapeGo results rest).2) := by
  rw [scrapeGo, h]
  simp [he]

theorem scrapeGo_mem_of (results : Nat → Except String (List ListingRecord)) :
    ∀ (order : List Nat) (p : Nat) (l : List ListingRecord) (x : ListingRecord),
      p ∈ order → results p = .ok l → x ∈ l →
      x ∈ (scrapeGo results order).1 := by
  intro order
  induction order with
  | nil => intro p l x hp _ _; simp at hp
  | cons q rest ih =>
    intro p l x hp hres hx
    rcases List.mem_cons.mp hp with rfl | hp'
    · have hne : l.isEmpty = false := by
        cases l with
        | nil => simp at hx
        | cons a t => rfl
      rw [scrapeGo_cons_ok_ne results p rest l hres hne]
      simp [hx]
    · have htl := ih p l x hp' hres hx
      cases hq : results q with
      | error e => rw [scrapeGo_cons_error results q rest e hq]; simpa using htl
      | ok lq =>
        cases hemp : lq.isEmpty with
        | true =>
          rw [scrapeGo_cons_ok_empty results q rest lq hq hemp]
          simpa using htl
        | false =>
          rw [scrapeGo_cons_ok_ne results q rest lq hq hemp]
          simp [htl]

theorem scrapeGo_failed_mem (results : Nat → Except String (List ListingRecord)) :
    ∀ (order : List Nat) (p : Nat) (e : String),
      p ∈ order → results p = .error e →
      (p, PageOutcome.failed e) ∈ (scrapeGo results order).2 := by
  intro order
  induction order with
  | nil => intro p e hp _; simp at hp
  | cons q rest ih =>
    intro p e hp hres
    rcases List.mem_cons.mp hp with rfl | hp'
    · rw [scrapeGo_cons_error results p rest e hres]
      simp
    · have htl := ih p e hp' hres
      cases hq : results q with
      | error e2 => rw [scrapeGo_cons_error results q rest e2 hq]; simp [htl]
      | ok lq =>
        cases hemp : lq.isEmpty with
        | true =>
          rw [scrapeGo_cons_ok_empty results q rest lq hq hemp]
          simp [htl]
        | false =>
          rw [scrapeGo_cons_ok_ne results q rest lq hq hemp]
          simp [htl]

/-! ## C9: concurrent orchestration -/

/-- **C9.** In `scrape_multiple_pages`, whatever completion order the worker
pool produces for pages 1..3, when page 2's fetch raises and pages 1 and 3
succeed, every record of pages 1 and 3 is in the accumulated collection, the
run returns normally, and the per-page reports mark page 2 as failed —
the exception never cancels the sibling pages. -/
theorem c9_scrape_multiple_pages :
    ∀ (fetch : Fetch) (pfetch : PFetch) (estate_type region : String)
      (order : List Nat) (l1 l3 : List ListingRecord) (e : String),
      order.Perm [1, 2, 3] →
      pageResult fetch pfetch estate_type region 1 = .ok l1 →
      pageResult fetch pfetch estate_type region 2 = .error e →
      pageResult fetch pfetch estate_type region 3 = .ok l3 →
      (∀ x ∈ l1,
        x ∈ (scrape_multiple_pages fetch pfetch estate_type region 3 order).1) ∧
      (∀ x ∈ l3,
        x ∈ (scrape_multiple_pages fetch pfetch estate_type region 3 order).1) ∧
      (2, PageOutcome.failed e) ∈
        (scrape_multiple_pages fetch pfetch estate_type region 3 order).2 := by
  intro fetch pfetch estate_type region order l1 l3 e hperm h1 h2 h3
  have m1 : (1 : Nat) ∈ order := hperm.mem_iff.mpr (by simp)
  have m2 : (2 : Nat) ∈ order := hperm.mem_iff.mpr (by simp)
  have m3 : (3 : Nat) ∈ order := hperm.mem_iff.mpr (by simp)
  refine ⟨fun x hx => ?_, fun x hx => ?_, ?_⟩
  · exact scrapeGo_mem_of _ order 1 l1 x m1 h1 hx
  · exact scrapeGo_mem_of _ order 3 l3 x m3 h3 hx
  · exact scrapeGo_failed_mem _ order 2 e m2 h2

/-- Witness for C9: with a page environment that raises for page 2 only and
serves one complete fragment for pages 1 and 3, the completion order
`[2, 3, 1]` still accumulates page 1's and page 3's record and reports page 2
as failed. -/
theorem c9_scrape_multiple_pages_witness :
    ([("Title", Value.s "Byt 2+kk 55 m²"), ("Property Type", Value.s "Flat"),
        ("Usable Area (m²)", Value.n 55), ("Flat Type", Value.s "2+kk"),
        ("Location", Value.s "Unknown"), ("Region", Value.nil),
        ("District", Value.nil), ("City", Value.nil), ("Energy Rank", Value.nil),
        ("Price (CZK)", Value.n 5200000),
        ("URL", Value.s "https://www.sreality.cz/d"),
        ("Image", Value.s "No image")] : ListingRecord) ∈
      (scrape_multiple_pages (fun _ => .ok ⟨404, [], none⟩)
        (fun u => if u = build_url "byty" "praha" 2 then .error "ConnectionError"
          else .ok ⟨200, [⟨["Byt 2+kk 55 m²"], some "5 200 000 Kč", some "/d",
            none⟩]⟩)
        "byty" "praha" 3 [2, 3, 1]).1 ∧
    (2, PageOutcome.failed "ConnectionError") ∈
      (scrape_multiple_pages (fun _ => .ok ⟨404, [], none⟩)
        (fun u => if u = build_url "byty" "praha" 2 then .error "ConnectionError"
          else .ok ⟨200, [⟨["Byt 2+kk 55 m²"], some "5 200 000 Kč", some "/d",
            none⟩]⟩)
        "byty" "praha" 3 [2, 3, 1]).2 := by
  have h := c9_scrape_multiple_pages (fun _ => .ok ⟨404, [], none⟩)
    (fun u => if u = build_url "byty" "praha" 2 then .error "ConnectionError"
      else .ok ⟨200, [⟨["Byt 2+kk 55 m²"], some "5 200 000 Kč", some "/d",
        none⟩]⟩)
    "byty" "praha" [2, 3, 1]
    [[("Title", Value.s "Byt 2+kk 55 m²"), ("Property Type", Value.s "Flat"),
      ("Usable Area (m²)", Value.n 55), ("Flat Type", Value.s "2+kk"),
      ("Location", Value.s "Unknown"), ("Region", Value.nil),
      ("District", Value.nil), ("City", Value.nil), ("Energy Rank", Value.nil),
      ("Price (CZK)", Value.n 5200000),
      ("URL", Value.s "https://www.sreality.cz/d"),
      ("Image", Value.s "No image")]]
    [[("Title", Value.s "Byt 2+kk 55 m²"), ("Property Type", Value.s "Flat"),
      ("Usable Area (m²)", Value.n 55), ("Flat Type", Value.s "2+kk"),
      ("Location", Value.s "Unknown"), ("Region", Value.nil),
      ("District", Value.nil), ("City", Value.nil), ("Energy Rank", Value.nil),
      ("Price (CZK)", Value.n 5200000),
      ("URL", Value.s "https://www.sreality.cz/d"),
      ("Image", Value.s "No image")]]
    "ConnectionError" (by decide) (by rfl) (by rfl) (by rfl)
  exact ⟨h.1 _ (by simp), h.2.2⟩

theorem parse_house_keys (fetch : Fetch) (title location : String)
    (price : Option Nat) (link image_url : String) (r : ListingRecord)
    (h : parse_house fetch title location price link image_url = .ok r) :
    recKeys r = houseFields := by
  rw [parse_house] at h
  split at h
  · exact absurd h (by simp)
  · obtain rfl : _ = r := by simpa using h
    rfl

theorem parse_flat_keys (fetch : Fetch) (title location : String)
    (price : Option Nat) (link image_url : String) (r : ListingRecord)
    (h : parse_flat fetch title location price link image_url = .ok r) :
    recKeys r = flatFields := by
  rw [parse_flat] at h
  split at h
  · exact absurd h (by simp)
  · obtain rfl : _ = r := by simpa using h
    rfl

theorem parse_listing_keys (fetch : Fetch) (frag : ListingFragment)
    (et : String) (r : ListingRecord)
    (h : parse_listing fetch frag et = .ok (some r)) :
    (et = "domy" → recKeys r = houseFields) ∧
    (et = "byty" → recKeys r = flatFields) := by
  obtain ⟨d7, pt, lh, im⟩ := frag
  cases d7 with
  | nil => rw [show parse_listing fetch ⟨[], pt, lh, im⟩ et = .ok none from by
      cases pt <;> cases lh <;> rfl] at h; simp at h
  | cons t0 trest =>
    cases pt with
    | none => rw [show parse_listing fetch ⟨t0 :: trest, none, lh, im⟩ et =
        .ok none from by cases lh <;> rfl] at h; simp at h
    | some p0 =>
      cases lh with
      | none => simp [show parse_listing fetch ⟨t0 :: trest, some p0, none, im⟩
          et = .ok none from rfl] at h
      | some h0 =>
        have hb : parse_listing fetch ⟨t0 :: trest, some p0, some h0, im⟩ et =
            (if et = "domy" then
              (parse_house fetch (pyStripS t0) (locOf trest)
                (clean_price (pyStripS p0)) ("https://www.sreality.cz" ++ h0)
                (imgOf im)).map some
            else if et = "byty" then
              (parse_flat fetch (pyStripS t0) (locOf trest)
                (clean_price (pyStripS p0)) ("https://www.sreality.cz" ++ h0)
                (imgOf im)).map some
            else .ok none) := rfl
        rw [hb] at h
        constructor
        · rintro rfl
          rw [if_pos rfl] at h
          cases hph : parse_house fetch (pyStripS t0) (locOf trest)
              (clean_price (pyStripS p0)) ("https://www.sreality.cz" ++ h0)
              (imgOf im) with
          | error e => rw [hph] at h; simp [Except.map] at h
          | ok rec =>
            rw [hph] at h
            obtain rfl : rec = r := by simpa [Except.map] using h
            exact parse_house_keys fetch _ _ _ _ _ rec hph
        · rintro rfl
          rw [if_neg (by decide), if_pos rfl] at h
          cases hph : parse_flat fetch (pyStripS t0) (locOf trest)
              (clean_price (pyStripS p0)) ("https://www.sreality.cz" ++ h0)
              (imgOf im) with
          | error e => rw [hph] at h; simp [Except.map] at h
          | ok rec =>
            rw [hph] at h
            obtain rfl : rec = r := by simpa [Except.map] using h
            exact parse_flat_keys fetch _ _ _ _ _ rec hph

theorem collectL_mem (fetch : Fetch) (et : String) :
    ∀ (items : List ListingFragment) (l : List ListingRecord)
      (x : ListingRecord),
      collectL fetch et items = .ok l → x ∈ l →
      ∃ i ∈ items, parse_listing fetch i et = .ok (some x) := by
  intro items
  induction items with
  | nil =>
    intro l x hcol hx
    obtain rfl : [] = l := by simpa [collectL] using hcol
    simp at hx
  | cons i rest ih =>
    intro l x hcol hx
    rw [collectL] at hcol
    cases hpi : parse_listing fetch i et with
    | error e => rw [hpi] at hcol; simp at hcol
    | ok o =>
      cases o with
      | none =>
        rw [hpi] at hcol
        obtain ⟨j, hj, hpj⟩ := ih l x hcol hx
        exact ⟨j, List.mem_cons_of_mem i hj, hpj⟩
      | some rr =>
        rw [hpi] at hcol
        cases hcr : collectL fetch et rest with
        | error e => rw [hcr] at hcol; simp [Except.map] at hcol
        | ok lr =>
          rw [hcr] at hcol
          obtain rfl : rr :: lr = l := by simpa [Except.map] using hcol
          rcases List.mem_cons.mp hx with rfl | hx'
          · exact ⟨i, List.mem_cons_self i rest, hpi⟩
          · obtain ⟨j, hj, hpj⟩ := ih lr x hcr hx'
            exact ⟨j, List.mem_cons_of_mem i hj, hpj⟩

theorem get_listings_mem (fetch : Fetch) (pfetch : PFetch)
    (et region : String) (page : Nat) (l : List ListingRecord)
    (con : List String) (x : ListingRecord)
    (h : get_listings fetch pfetch et region page = .ok (l, con)) (hx : x ∈ l) :
    ∃ i, parse_listing fetch i et = .ok (some x) := by
  rw [get_listings] at h
  cases hpv : pfetch (build_url et region page) with
  | error e => rw [hpv] at h; simp at h
  | ok resp =>
    rw [hpv] at h
    dsimp only at h
    by_cases hs : resp.status_code ≠ 200
    · rw [if_pos hs] at h
      obtain ⟨rfl, -⟩ : [] = l ∧ _ := by simpa using h
      simp at hx
    · rw [if_neg hs] at h
      cases hcl : collectL fetch et resp.items with
      | error e => rw [hcl] at h; simp at h
      | ok lst =>
        rw [hcl] at h
        obtain ⟨rfl, -⟩ : lst = l ∧ _ := by simpa using h
        obtain ⟨i, _, hp⟩ := collectL_mem fetch et resp.items lst x hcl hx
        exact ⟨i, hp⟩

theorem scrapeGo_mem_inv (results : Nat → Except String (List ListingRecord)) :
    ∀ (order : List Nat) (x : ListingRecord),
      x ∈ (scrapeGo results order).1 →
      ∃ p l, results p = .ok l ∧ x ∈ l := by
  intro order
  induction order with
  | nil => intro x hx; simp [scrapeGo] at hx
  | cons q rest ih =>
    intro x hx
    cases hq : results q with
    | error e =>
      rw [scrapeGo_cons_error results q rest e hq] at hx
      exact ih x hx
    | ok lq =>
      cases hemp : lq.isEmpty with
      | true =>
        rw [scrapeGo_cons_ok_empty results q rest lq hq hemp] at hx
        exact ih x hx
      | false =>
        rw [scrapeGo_cons_ok_ne results q rest lq hq hemp] at hx
        rcases List.mem_append.mp hx with hx1 | hx2
        · exact ⟨q, lq, hq, hx1⟩
        · exact ih x hx2

theorem scrape_mem_parse (fetch : Fetch) (pfetch : PFetch)
    (et region : String) (pages : Nat) (order : List Nat) (x : ListingRecord)
    (hx : x ∈ (scrape_multiple_pages fetch pfetch et region pages order).1) :
    ∃ i, parse_listing fetch i et = .ok (some x) := by
  obtain ⟨p, l, hres, hxl⟩ := scrapeGo_mem_inv
    (pageResult fetch pfetch et region) order x hx
  rw [pageResult] at hres
  cases hg : get_listings fetch pfetch et region p with
  | error e => rw [hg] at hres; simp [Except.map] at hres
  | ok pr =>
    obtain ⟨lst, con⟩ := pr
    rw [hg] at hres
    obtain rfl : lst = l := by simpa [Except.map] using hres
    exact get_listings_mem fetch pfetch et region p lst con x hg hxl

theorem headerOf_foldl_const (F : List String) :
    ∀ (data : List ListingRecord) (acc : List String),
      (∀ r ∈ data, recKeys r = F) → (∀ k ∈ F, acc.contains k = true) →
      data.foldl
        (fun acc r => acc ++ (recKeys r).filter (fun k => !acc.contains k))
        acc = acc := by
  intro data
  induction data with
  | nil => intro acc _ _; rfl
  | cons r rest ih =>
    intro acc hF hacc
    have hr : recKeys r = F := hF r (List.mem_cons_self r rest)
    have hfil : (recKeys r).filter (fun k => !acc.contains k) = [] := by
      rw [hr, List.filter_eq_nil_iff]
      intro k hk
      rw [hacc k hk]
      simp
    rw [List.foldl_cons, hfil, List.append_nil]
    exact ih acc (fun s hs => hF s (List.mem_cons_of_mem r hs)) hacc

theorem headerOf_fixed (F : List String) (data : List ListingRecord)
    (hF : ∀ r ∈ data, recKeys r = F) (hne : data ≠ []) :
    headerOf data = F := by
  cases data with
  | nil => exact absurd rfl hne
  | cons r0 rest =>
    have hr0 : recKeys r0 = F := hF r0 (List.mem_cons_self r0 rest)
    rw [headerOf, List.foldl_cons]
    have hstep : ([] : List String) ++
        (recKeys r0).filter (fun k => !List.contains [] k) = F := by
      rw [hr0]
      simp
    rw [hstep]
    exact headerOf_foldl_const F rest F
      (fun s hs => hF s (List.mem_cons_of_mem r0 hs))
      (fun k hk => by simpa [List.contains, List.elem_iff] using hk)

/-! ## C10: fixed per-kind key sets -/

/-- **C10.** Every house record carries exactly the 12 House keys and every
flat record exactly the 12 Flat keys, in insertion order, with absent values
stored as `None` under their keys rather than omitted; hence every record of
a `"domy"` run has the House key set, every record of a `"byty"` run the
Flat key set, and the `pd.DataFrame` header (first-appearance union of keys)
of a non-empty run is exactly the fixed per-kind field list — never a mixed
House/Flat union. -/
theorem c10_fixed_key_sets :
    (∀ (fetch : Fetch) (title location : String) (price : Option Nat)
        (link image_url : String) (r : ListingRecord),
      parse_house fetch title location price link image_url = .ok r →
      recKeys r = houseFields)
    ∧ (∀ (fetch : Fetch) (title location : String) (price : Option Nat)
        (link image_url : String) (r : ListingRecord),
      parse_flat fetch title location price link image_url = .ok r →
      recKeys r = flatFields)
    ∧ (∀ (fetch : Fetch) (pfetch : PFetch) (region : String) (pages : Nat)
        (order : List Nat) (r : ListingRecord),
      r ∈ (scrape_multiple_pages fetch pfetch "domy" region pages order).1 →
      recKeys r = houseFields)
    ∧ (∀ (fetch : Fetch) (pfetch : PFetch) (region : String) (pages : Nat)
        (order : List Nat) (r : ListingRecord),
      r ∈ (scrape_multiple_pages fetch pfetch "byty" region pages order).1 →
      recKeys r = flatFields)
    ∧ (∀ (fetch : Fetch) (pfetch : PFetch) (region : String) (pages : Nat)
        (order : List Nat),
      (scrape_multiple_pages fetch pfetch "domy" region pages order).1 ≠ [] →
      headerOf (scrape_multiple_pages fetch pfetch "domy" region pages order).1 =
        houseFields)
    ∧ (∀ (fetch : Fetch) (pfetch : PFetch) (region : String) (pages : Nat)
        (order : List Nat),
      (scrape_multiple_pages fetch pfetch "byty" region pages order).1 ≠ [] →
      headerOf (scrape_multiple_pages fetch pfetch "byty" region pages order).1 =
        flatFields) := by
  have hd : ∀ (fetch : Fetch) (pfetch : PFetch) (region : String) (pages : Nat)
      (order : List Nat) (r : ListingRecord),
      r ∈ (scrape_multiple_pages fetch pfetch "domy" region pages order).1 →
      recKeys r = houseFields := by
    intro fetch pfetch region pages order r hr
    obtain ⟨i, hi⟩ := scrape_mem_parse fetch pfetch "domy" region pages order r hr
    exact (parse_listing_keys fetch i "domy" r hi).1 rfl
  have hb : ∀ (fetch : Fetch) (pfetch : PFetch) (region : String) (pages : Nat)
      (order : List Nat) (r : ListingRecord),
      r ∈ (scrape_multiple_pages fetch pfetch "byty" region pages order).1 →
      recKeys r = flatFields := by
    intro fetch pfetch region pages order r hr
    obtain ⟨i, hi⟩ := scrape_mem_parse fetch pfetch "byty" region pages order r hr
    exact (parse_listing_keys fetch i "byty" r hi).2 rfl
  refine ⟨parse_house_keys, parse_flat_keys, hd, hb, ?_, ?_⟩
  · intro fetch pfetch region pages order hne
    exact headerOf_fixed houseFields _
      (fun r hr => hd fetch pfetch region pages order r hr) hne
  · intro fetch pfetch region pages order hne
    exact headerOf_fixed flatFields _
      (fun r hr => hb fetch pfetch region pages order r hr) hne

/-- Witness for C10: a one-page `"domy"` run with one complete fragment has
the exact 12-column House header. -/
theorem c10_fixed_key_sets_witness :
    headerOf ((scrape_multiple_pages (fun _ => .ok ⟨404, [], none⟩)
      (fun _ => .ok ⟨200, [⟨["Dům 120 m², pozemek 450 m²"],
        some "5 200 000 Kč", some "/d", none⟩]⟩)
      "domy" "praha" 1 [1]).1) = houseFields :=
  c10_fixed_key_sets.2.2.2.2.1 (fun _ => .ok ⟨404, [], none⟩)
    (fun _ => .ok ⟨200, [⟨["Dům 120 m², pozemek 450 m²"],
      some "5 200 000 Kč", some "/d", none⟩]⟩)
    "praha" 1 [1] (by decide)

/-! ## C1: run outcome and exit status (corrected) -/

/-- **C1 counterexample.** A fully attempted run (valid arguments, one page
requested and fetched, the page's response received with a 404 status) that
produces zero listing records writes no file and reports "no data", but the
process exits with status **0**: the no-data branch of `__main__`
(src/scraper.py:393-395) only prints and never calls `sys.exit`, refuting the
claimed non-zero exit. -/
theorem c1_counterexample :
    mainRun (fun _ => .ok ⟨404, [], none⟩) (fun _ => .ok ⟨404, []⟩) [1]
      ["scraper.py", "byty", "praha", "1"] = ⟨0, false, true⟩ := rfl

/-- **C1 (amended).** When a fully attempted run produces zero listing
records, the program writes no output file and reports the "no data" outcome
but exits with status zero; the run exits non-zero exactly on argument
validation failure (including a wrong argument count); a run with records
writes the file and also exits zero. -/
theorem c1_main_exit_amended :
    (∀ (fetch : Fetch) (pfetch : PFetch) (order : List Nat)
        (prog a1 a2 a3 et rg : String) (n : Nat),
      validate_args a1 a2 a3 = .ok (et, rg, n) →
      (scrape_multiple_pages fetch pfetch et rg n order).1 = [] →
      mainRun fetch pfetch order [prog, a1, a2, a3] = ⟨0, false, true⟩)
    ∧ (∀ (fetch : Fetch) (pfetch : PFetch) (order : List Nat)
        (prog a1 a2 a3 : String),
      (mainRun fetch pfetch order [prog, a1, a2, a3]).exitCode ≠ 0 ↔
        (validate_args a1 a2 a3).isOk = false)
    ∧ (∀ (fetch : Fetch) (pfetch : PFetch) (order : List Nat)
        (argv : List String),
      argv.length ≠ 4 → mainRun fetch pfetch order argv = ⟨1, false, false⟩)
    ∧ (∀ (fetch : Fetch) (pfetch : PFetch) (order : List Nat)
        (prog a1 a2 a3 et rg : String) (n : Nat),
      validate_args a1 a2 a3 = .ok (et, rg, n) →
      (scrape_multiple_pages fetch pfetch et rg n order).1 ≠ [] →
      mainRun fetch pfetch order [prog, a1, a2, a3] = ⟨0, true, false⟩) := by
  have hb : ∀ (fetch : Fetch) (pfetch : PFetch) (order : List Nat)
      (prog a1 a2 a3 : String),
      mainRun fetch pfetch order [prog, a1, a2, a3] =
        (match validate_args a1 a2 a3 with
          | .error _ => ⟨1, false, false⟩
          | .ok (et, rg, n) =>
            if ((scrape_multiple_pages fetch pfetch et rg n order).1).isEmpty
            then ⟨0, false, true⟩ else ⟨0, true, false⟩) :=
    fun _ _ _ _ _ _ _ => rfl
  refine ⟨?_, ?_, ?_, ?_⟩
  · intro fetch pfetch order prog a1 a2 a3 et rg n hval hdata
    rw [hb, hval]
    simp [hdata]
  · intro fetch pfetch order prog a1 a2 a3
    rw [hb]
    cases hv : validate_args a1 a2 a3 with
    | error e => simp [Except.isOk, Except.toBool]
    | ok out =>
      obtain ⟨et, rg, n⟩ := out
      by_cases hemp :
          ((scrape_multiple_pages fetch pfetch et rg n order).1).isEmpty
      · simp [hemp, Except.isOk, Except.toBool]
      · simp [hemp, Except.isOk, Except.toBool]
  · intro fetch pfetch order argv h
    match argv with
    | [] => rfl
    | [_] => rfl
    | [_, _] => rfl
    | [_, _, _] => rfl
    | [_, _, _, _] => exact absurd rfl h
    | _ :: _ :: _ :: _ :: _ :: _ => rfl
  · intro fetch pfetch order prog a1 a2 a3 et rg n hval hdata
    rw [hb, hval]
    simp [hdata]

/-- Witness for the amended C1: an invalid estate type makes the run exit
non-zero. -/
theorem c1_main_exit_amended_witness :
    (mainRun (fun _ => .ok ⟨404, [], none⟩) (fun _ => .ok ⟨404, []⟩) [1]
      ["scraper.py", "garaze", "praha", "1"]).exitCode ≠ 0 :=
  (c1_main_exit_amended.2.1 (fun _ => .ok ⟨404, [], none⟩)
    (fun _ => .ok ⟨404, []⟩) [1] "scraper.py" "garaze" "praha" "1").mpr
    (by decide)

end Sreality
